import Mathlib

/-!
Verification development for the Empathic-AI-Research chatbot core.

Shallow embedding of:
  * `src/utils/random_assignment.py` (`RandomAssignment`),
  * `src/chatbot/bot_manager.py` (`BotManager`),
  * `src/chatbot/conversation_handler.py` (`ConversationHandler`),
  * the per-turn boundary logic of `src/app.py` (`main`).

Python dictionaries are embedded as association lists (insertion order
preserved, keys unique), Python exceptions as `Except PyError`, and
`random.choice` as selection by an arbitrary index parameter `k`
(`seq[k % len(seq)]`, which ranges over exactly the elements
`random.choice` can return).  Wall-clock timestamps are not modelled.
-/

/-- A chat message `{"role": ..., "content": ...}`. -/
structure Msg where
  role : String
  content : String
deriving DecidableEq, Repr

/-- Python exceptions relevant to the embedded code. -/
inductive PyError where
  | valueError (msg : String)
deriving DecidableEq, Repr

instance {ε α : Type} [DecidableEq ε] [DecidableEq α] : DecidableEq (Except ε α)
  | .error a, .error b => if h : a = b then .isTrue (by rw [h]) else .isFalse (by simp [h])
  | .error _, .ok _ => .isFalse (by simp)
  | .ok _, .error _ => .isFalse (by simp)
  | .ok a, .ok b => if h : a = b then .isTrue (by rw [h]) else .isFalse (by simp [h])

/-- `d[k]` lookup in a Python dict embedded as an association list:
`d.get(k)` / `k in d` style access (first entry with the key). -/
def dictGet? {α : Type} (d : List (String × α)) (k : String) : Option α :=
  (d.find? (fun p => p.1 == k)).map Prod.snd

/-- `d.get(k, dflt)` on a Python dict. -/
def dictGetD {α : Type} (d : List (String × α)) (k : String) (dflt : α) : α :=
  (dictGet? d k).getD dflt

/-- `d[k] = v` on a Python dict: replace the entry if the key is present,
otherwise append it (insertion order semantics). -/
def dictSet {α : Type} (d : List (String × α)) (k : String) (v : α) :
    List (String × α) :=
  if (d.find? (fun p => p.1 == k)).isSome then
    d.map (fun p => if p.1 == k then (k, v) else p)
  else d ++ [(k, v)]

/-- Python `min()` over a list of counts: raises `ValueError` on an empty
sequence, otherwise folds `min` over the values. -/
def pyMin (l : List Nat) : Except PyError Nat :=
  match l with
  | [] => .error (.valueError "min() arg is an empty sequence")
  | v :: vs => .ok (vs.foldl Nat.min v)

/-- `random.choice(seq)` modelled by an index parameter `k`: returns
`seq[k % len(seq)]`; raises on an empty sequence.  As `k` ranges over `Nat`
this ranges over exactly the elements `random.choice` can return. -/
def pyChoice {α : Type} (l : List α) (k : Nat) : Except PyError α :=
  match l with
  | [] => .error (.valueError "Cannot choose from an empty sequence")
  | a :: rest => .ok ((a :: rest).getD (k % (a :: rest).length) a)

/-! ## RandomAssignment (`src/utils/random_assignment.py`) -/

/-- `RandomAssignment.bot_types` (note: distinct from `BotManager.bot_types`,
which uses `"control"` in place of `"neutral"`). -/
def raBotTypes : List String := ["emotional", "cognitive", "motivational", "neutral"]

/-- `RandomAssignment._assign_equal_distribution`, with the current
distribution (as returned by `get_bot_distribution`) passed explicitly and
`random.choice`'s randomness as the index `k`:
`min_count = min(distribution.values())`;
`bot_types_with_min = [bot for bot, count in distribution.items() if count == min_count]`;
`random.choice(bot_types_with_min)`. -/
def assignEqualDistribution (distribution : List (String × Nat)) (k : Nat) :
    Except PyError String :=
  match pyMin (distribution.map Prod.snd) with
  | .error e => .error e
  | .ok min_count =>
    let bot_types_with_min :=
      (distribution.filter (fun p => p.2 == min_count)).map Prod.fst
    pyChoice bot_types_with_min k

/-- `RandomAssignment._assign_sequential`: `bot_types[total % len(bot_types)]`. -/
def assignSequential (total_participants : Nat) : String :=
  raBotTypes.getD (total_participants % raBotTypes.length) "emotional"

/-- `RandomAssignment.assign_bot_type(method)`; `total` is
`get_statistics()['total_participants']`, used only by `"sequential"`. -/
def assignBotType (method : String) (distribution : List (String × Nat))
    (k : Nat) (total : Nat) : Except PyError String :=
  if method == "equal_distribution" then assignEqualDistribution distribution k
  else if method == "random" then pyChoice raBotTypes k
  else if method == "sequential" then .ok (assignSequential total)
  else assignEqualDistribution distribution k

/-! Iterated serialized assignment (the scenario of the balance invariant):
each assignment's result is added to the distribution before the next call. -/

/-- Increment the count recorded for key `b`. -/
def bumpKey (d : List (String × Nat)) (b : String) : List (String × Nat) :=
  d.map (fun p => if p.1 == b then (p.1, p.2 + 1) else p)

/-- One serialized `assign_bot_type("equal_distribution")` call followed by
persisting the new participant (which increments the assigned variant's
count).  A raising call leaves the distribution unchanged. -/
def stepAssign (d : List (String × Nat)) (k : Nat) : List (String × Nat) :=
  match assignEqualDistribution d k with
  | .ok b => bumpKey d b
  | .error _ => d

/-- The all-zero distribution over the four variants. -/
def allZero : List (String × Nat) := raBotTypes.map (fun b => (b, 0))

/-- Run a sequence of serialized equal-distribution assignments from the
all-zero distribution; `ks` supplies each call's tie-breaking randomness. -/
def runAssignments (ks : List Nat) : List (String × Nat) :=
  ks.foldl stepAssign allZero

example : runAssignments [0, 0] =
    [("emotional", 1), ("cognitive", 1), ("motivational", 0), ("neutral", 0)] := by
  decide

example : assignEqualDistribution [] 0 =
    .error (.valueError "min() arg is an empty sequence") := by decide

/-! ## BotManager (`src/chatbot/bot_manager.py`) -/

/-- `BotManager.bot_types` (`["cognitive", "emotional", "motivational", "control"]`). -/
def bmBotTypes : List String := ["cognitive", "emotional", "motivational", "control"]

/-- One entry of `BotManager.sessions`:
`{"participant_id": ..., "bot_type": ..., "history": [...]}`. -/
structure SessData where
  participant_id : String
  bot_type : String
  history : List Msg
deriving DecidableEq, Repr

/-- The live session registry `BotManager.sessions` (a Python dict). -/
def Sessions : Type := List (String × SessData)

/-- The configuration-dependent state of a `BotManager`:
`prompts` is the `self.prompts` dict (bot type -> system prompt text, empty
string for a missing prompt file and for `"control"`); `crisis` is the
optional crisis detector, embedded as its `check_message` function
(`None` when the detector is absent or failed to construct); `crisisText`
is the text `self._crisis_text()` returns (configuration-supplied safety
message or the hardcoded fallback — its file reads are not modelled);
`complete` is the external completion collaborator
(`self._client.chat.completions.create`, reduced to its returned message
content), `Except.error` meaning the provider call raised. -/
structure BotManagerM where
  prompts : List (String × String)
  crisis : Option (String → Bool × Option String)
  crisisText : String
  complete : List Msg → Except String String

/-- Result dict of `BotManager.get_bot_response`. -/
structure BotReply where
  bot_response : String
  crisis_detected : Bool
  detected_keyword : Option String
deriving DecidableEq, Repr

/-- Outcome of a successful `get_bot_response` call: the returned reply
dict, the updated `self.sessions`, and — as instrumentation — the list of
payloads sent to the external completion collaborator during the call. -/
structure TurnOutcome where
  reply : BotReply
  sessions : List (String × SessData)
  modelCalls : List (List Msg)
deriving DecidableEq, Repr

/-- Crisis check step of `get_bot_response` (lines 107-112): if a detector
is configured, ask it (`check_message` exceptions are caught in the source
and mapped to `(False, None)`; the embedded detector is a total function,
so that handler collapses); otherwise `(False, None)`. -/
def crisisCheck (bm : BotManagerM) (user_message : String) : Bool × Option String :=
  match bm.crisis with
  | some check => check user_message
  | none => (false, none)

/-- Payload builder of `get_bot_response` (lines 123-130):
`messages = ([system] if system_prompt else []) + history[-20:] + [user]`,
with `system_prompt = self.prompts.get(bot_type, "")`. -/
def buildMessages (bm : BotManagerM) (sess : SessData) (user_message : String) :
    List Msg :=
  let system_prompt := dictGetD bm.prompts sess.bot_type ""
  (if system_prompt = "" then [] else [⟨"system", system_prompt⟩])
    ++ sess.history.drop (sess.history.length - 20)
    ++ [⟨"user", user_message⟩]

/-- The error-text reply `_call_model` produces when the provider call
raises (the literal from line 185 of `bot_manager.py`, mojibake included). -/
def modelErrorReply (e : String) : String :=
  "Iâ€™m sorry, I ran into an error: " ++ e

/-- `BotManager._call_model` (lines 171-185): on success return the reply
content stripped; any exception is caught and turned into an error-text
reply — the exception is NOT propagated to the caller. -/
def callModel (complete : List Msg → Except String String) (messages : List Msg) :
    String :=
  match complete messages with
  | .ok content => content.trim
  | .error e => modelErrorReply e

/-- `BotManager.get_bot_response` (lines 102-143).  Raises `ValueError`
("Session not found") for an unknown session id; on a detected crisis
returns the safety text without touching the history or the collaborator;
otherwise builds the payload, calls the model and appends the user turn and
the reply to the session's history. -/
def getBotResponse (bm : BotManagerM) (sessions : List (String × SessData))
    (session_id user_message : String) : Except PyError TurnOutcome :=
  match dictGet? sessions session_id with
  | none => .error (.valueError ("Session not found: " ++ session_id))
  | some sess =>
    let c := crisisCheck bm user_message
    if c.1 then
      .ok { reply := { bot_response := bm.crisisText, crisis_detected := true,
                       detected_keyword := c.2 },
            sessions := sessions, modelCalls := [] }
    else
      let messages := buildMessages bm sess user_message
      let reply := callModel bm.complete messages
      let sess2 : SessData :=
        { sess with history := sess.history ++ [⟨"user", user_message⟩,
                                                ⟨"assistant", reply⟩] }
      .ok { reply := { bot_response := reply, crisis_detected := false,
                       detected_keyword := none },
            sessions := dictSet sessions session_id sess2,
            modelCalls := [messages] }

/-- Result dict of `BotManager.create_new_session`. -/
structure NewSession where
  session_id : String
  participant_id : String
  bot_type : String
deriving DecidableEq, Repr

/-- `BotManager.create_new_session` (lines 91-100).  The fresh
`session_id`/`participant_id` (uuid-derived in the source) are passed in;
`random.choice(self.bot_types)` is the index model `k`.  Note: the variant
is drawn uniformly from `bmBotTypes`; no distribution is consulted. -/
def createNewSession (sessions : List (String × SessData))
    (session_id participant_id : String) (k : Nat) :
    List (String × SessData) × NewSession :=
  let bot_type := bmBotTypes.getD (k % bmBotTypes.length) "cognitive"
  (dictSet sessions session_id
     { participant_id := participant_id, bot_type := bot_type, history := [] },
   { session_id := session_id, participant_id := participant_id,
     bot_type := bot_type })

/-- `BotManager.end_session` (lines 145-148):
`if session_id in self.sessions: del self.sessions[session_id]`.
Total — it never raises. -/
def endSession (sessions : List (String × SessData)) (session_id : String) :
    List (String × SessData) :=
  if (sessions.find? (fun p => p.1 == session_id)).isSome then
    sessions.eraseP (fun p => p.1 == session_id)
  else sessions

/-! ## ConversationHandler (`src/chatbot/conversation_handler.py`) -/

/-- One conversation's state dict (`start_conversation`, lines 42-52);
the `started_at`/`ended_at` timestamps are not modelled, messages keep
`(sender, content)`. -/
structure ConvState where
  session_id : String
  participant_id : String
  bot_type : String
  current_message_num : Nat
  max_messages : Nat
  is_active : Bool
  is_complete : Bool
  messages : List (String × String)
deriving DecidableEq, Repr

/-- `ConversationHandler.start_conversation` (lines 29-57). -/
def startConversation (handler_max : Nat)
    (session_id participant_id bot_type : String) : ConvState :=
  { session_id := session_id, participant_id := participant_id,
    bot_type := bot_type, current_message_num := 0,
    max_messages := handler_max, is_active := true, is_complete := false,
    messages := [] }

/-- The mutation `ConversationHandler.add_message` applies to the
conversation it found (lines 75-96): append the message; increment
`current_message_num` iff `sender == "user"`; if the counter has reached
`self.max_messages` (`handler_max`), set `is_active := false` and
`is_complete := true`. -/
def addMessageState (handler_max : Nat) (conv : ConvState)
    (sender content : String) : ConvState :=
  let conv1 := { conv with messages := conv.messages ++ [(sender, content)] }
  let conv2 :=
    if sender == "user" then
      { conv1 with current_message_num := conv1.current_message_num + 1 }
    else conv1
  if handler_max ≤ conv2.current_message_num then
    { conv2 with is_active := false, is_complete := true }
  else conv2

/-- Fold a sequence of `(sender, content)` turns through `add_message`. -/
def runTurns (handler_max : Nat) (conv : ConvState)
    (turns : List (String × String)) : ConvState :=
  turns.foldl (fun c t => addMessageState handler_max c t.1 t.2) conv

/-! ## Per-turn boundary logic of `src/app.py` (`main`) -/

/-- `app.py` line 194: input is disabled (the next turn blocked) when
`st.session_state.current_message_num >= max_messages`; the same test at
line 180 moves the conversation to its complete stage. -/
def shouldDisableInput (current_message_num max_messages : Nat) : Bool :=
  max_messages ≤ current_message_num

/-- The Streamlit session state `app.py` keeps across reruns, restricted
to what the per-turn logic touches. -/
structure AppState where
  current_message_num : Nat
  messages : List Msg
  sessions : List (String × SessData)
deriving Repr

/-- One accepted user input in `app.py` (lines 197-265): increment the
counter and append the user message FIRST, then call
`bot_manager.get_bot_response`; on success append the assistant reply; on
an exception only an error is displayed — the already-updated counter and
transcript are kept either way. -/
def appUserTurn (bm : BotManagerM) (st : AppState)
    (session_id user_input : String) : AppState :=
  let st1 : AppState :=
    { st with current_message_num := st.current_message_num + 1,
              messages := st.messages ++ [⟨"user", user_input⟩] }
  match getBotResponse bm st1.sessions session_id user_input with
  | .ok out =>
      { st1 with messages := st1.messages ++ [⟨"assistant", out.reply.bot_response⟩],
                 sessions := out.sessions }
  | .error _ => st1

/-- Whether an `Except` computation returned normally (did not raise). -/
def exceptOk {ε α : Type} : Except ε α → Bool
  | .ok _ => true
  | .error _ => false

/-! ## Example states used in concrete instantiations -/

/-- A session with empty history. -/
def sdemo : SessData := { participant_id := "P1", bot_type := "control", history := [] }

/-- A session with one prior exchange, for a variant with a system prompt. -/
def sdemo2 : SessData :=
  { participant_id := "P2", bot_type := "cognitive",
    history := [⟨"user", "a"⟩, ⟨"assistant", "b"⟩] }

/-- A BotManager with one prompt, no crisis detector, succeeding collaborator. -/
def bmPlain : BotManagerM :=
  { prompts := [("cognitive", "SYS")], crisis := none, crisisText := "SAFETY",
    complete := fun _ => .ok " hello " }

/-- A BotManager whose crisis detector fires exactly on one message. -/
def bmCrisis : BotManagerM :=
  { prompts := [], crisisText := "SAFETY", complete := fun _ => .ok "x",
    crisis := some (fun m =>
      if m == "I want to end my life" then (true, some "end my life")
      else (false, none)) }

/-- A BotManager whose completion collaborator always raises. -/
def bmFail : BotManagerM :=
  { prompts := [], crisis := none, crisisText := "SAFETY",
    complete := fun _ => .error "boom" }

/-- A one-session registry. -/
def sessionsFail : List (String × SessData) := [("s", sdemo)]

/-- A persisted distribution in which `"emotional"` is the unique minimum. -/
def dExample : List (String × Nat) :=
  [("emotional", 0), ("cognitive", 5), ("motivational", 5), ("neutral", 5)]

/-! ## Helper lemmas -/

theorem getD_mem_or {α : Type} (l : List α) (n : Nat) (d : α) :
    l.getD n d ∈ l ∨ l.getD n d = d := by
  induction l generalizing n with
  | nil => right; cases n <;> rfl
  | cons a t ih =>
    cases n with
    | zero => left; simp [List.getD]
    | succ m =>
      have h : (a :: t).getD (m + 1) d = t.getD m d := rfl
      rw [h]
      rcases ih m with h1 | h1
      · left; exact List.mem_cons_of_mem _ h1
      · right; exact h1

theorem pyChoice_ok_mem {α : Type} (l : List α) (k : Nat) (b : α)
    (h : pyChoice l k = .ok b) : b ∈ l := by
  cases l with
  | nil => simp [pyChoice] at h
  | cons a rest =>
    simp only [pyChoice, Except.ok.injEq] at h
    rcases getD_mem_or (a :: rest) (k % (a :: rest).length) a with hm | hd
    · rw [← h]; exact hm
    · rw [← h, hd]; exact List.mem_cons_self a rest

theorem foldl_min_le_init (l : List Nat) (a : Nat) : l.foldl Nat.min a ≤ a := by
  induction l generalizing a with
  | nil => simp
  | cons x xs ih =>
    calc xs.foldl Nat.min (Nat.min a x) ≤ Nat.min a x := ih _
      _ ≤ a := Nat.min_le_left _ _

theorem foldl_min_le_mem (l : List Nat) (a : Nat) :
    ∀ x ∈ l, l.foldl Nat.min a ≤ x := by
  induction l generalizing a with
  | nil => intro x hx; simp at hx
  | cons y ys ih =>
    intro x hx
    rcases List.mem_cons.mp hx with rfl | hx'
    · calc ys.foldl Nat.min (Nat.min a x) ≤ Nat.min a x := foldl_min_le_init _ _
        _ ≤ x := Nat.min_le_right _ _
    · exact ih _ x hx'

theorem foldl_min_mem (l : List Nat) (a : Nat) :
    l.foldl Nat.min a = a ∨ l.foldl Nat.min a ∈ l := by
  induction l generalizing a with
  | nil => left; rfl
  | cons x xs ih =>
    have hc : (x :: xs).foldl Nat.min a = xs.foldl Nat.min (Nat.min a x) := rfl
    rw [hc]
    rcases ih (Nat.min a x) with h | h
    · rcases Nat.le_total a x with hax | hax
      · left; rw [h]; show min a x = a; omega
      · right
        have hmx : Nat.min a x = x := by show min a x = x; omega
        rw [h, hmx]; exact List.mem_cons_self _ _
    · right; exact List.mem_cons_of_mem _ h

theorem pyMin_ok_spec (l : List Nat) (m : Nat) (h : pyMin l = .ok m) :
    m ∈ l ∧ ∀ x ∈ l, m ≤ x := by
  cases l with
  | nil => simp [pyMin] at h
  | cons v vs =>
    simp only [pyMin, Except.ok.injEq] at h
    constructor
    · rcases foldl_min_mem vs v with h1 | h1
      · rw [← h, h1]; exact List.mem_cons_self _ _
      · rw [← h]; exact List.mem_cons_of_mem _ h1
    · intro x hx
      rcases List.mem_cons.mp hx with rfl | hx'
      · rw [← h]; exact foldl_min_le_init _ _
      · rw [← h]; exact foldl_min_le_mem _ _ x hx'

theorem assignEqual_ok_spec (d : List (String × Nat)) (k : Nat) (b : String)
    (h : assignEqualDistribution d k = .ok b) :
    ∃ m, (b, m) ∈ d ∧ ∀ p ∈ d, m ≤ p.2 := by
  unfold assignEqualDistribution at h
  cases hm : pyMin (d.map Prod.snd) with
  | error e => rw [hm] at h; cases h
  | ok m =>
    rw [hm] at h
    have hb := pyChoice_ok_mem _ _ _ h
    rcases List.mem_map.mp hb with ⟨q, hq, rfl⟩
    have hq2 := List.mem_filter.mp hq
    have hqm : q.2 = m := by
      have := hq2.2
      simpa using this
    refine ⟨m, ?_, ?_⟩
    · have hqe : q = (q.1, m) := by
        cases q with
        | mk q1 q2 => simp_all
      rw [← hqe]; exact hq2.1
    · intro p hp
      exact (pyMin_ok_spec _ _ hm).2 p.2 (List.mem_map.mpr ⟨p, hp, rfl⟩)

theorem nodup_key_unique {α : Type} (d : List (String × α))
    (hnd : (d.map Prod.fst).Nodup) :
    ∀ p ∈ d, ∀ q ∈ d, p.1 = q.1 → p = q := by
  induction d with
  | nil => intro p hp; simp at hp
  | cons a t ih =>
    simp only [List.map_cons, List.nodup_cons] at hnd
    intro p hp q hq hpq
    rcases List.mem_cons.mp hp with rfl | hp' <;>
      rcases List.mem_cons.mp hq with rfl | hq'
    · rfl
    · exact absurd (hpq ▸ List.mem_map.mpr ⟨q, hq', rfl⟩) hnd.1
    · exact absurd (hpq ▸ List.mem_map.mpr ⟨p, hp', rfl⟩) hnd.1
    · exact ih hnd.2 p hp' q hq' hpq

theorem bumpKey_keys (d : List (String × Nat)) (b : String) :
    (bumpKey d b).map Prod.fst = d.map Prod.fst := by
  unfold bumpKey
  induction d with
  | nil => rfl
  | cons a t ih =>
    simp only [List.map_cons]
    rw [ih]
    by_cases h : (a.1 == b) = true <;> simp [h]

theorem stepAssign_preserves (d : List (String × Nat)) (k : Nat)
    (hnd : (d.map Prod.fst).Nodup)
    (hbal : ∀ p ∈ d, ∀ q ∈ d, p.2 ≤ q.2 + 1) :
    (stepAssign d k).map Prod.fst = d.map Prod.fst
    ∧ ∀ p ∈ stepAssign d k, ∀ q ∈ stepAssign d k, p.2 ≤ q.2 + 1 := by
  unfold stepAssign
  cases h : assignEqualDistribution d k with
  | error e => exact ⟨rfl, hbal⟩
  | ok b =>
    obtain ⟨m, hbm, hmin⟩ := assignEqual_ok_spec d k b h
    refine ⟨bumpKey_keys d b, ?_⟩
    intro p' hp' q' hq'
    simp only [bumpKey, List.mem_map] at hp' hq'
    rcases hp' with ⟨p, hp, rfl⟩
    rcases hq' with ⟨q, hq, rfl⟩
    have hqge : q.2 ≤ (if q.1 == b then (q.1, q.2 + 1) else q).2 := by
      by_cases h2 : (q.1 == b) = true <;> simp [h2]
    by_cases hpb : (p.1 == b) = true
    · have hpe : p = (b, m) :=
        nodup_key_unique d hnd p hp (b, m) hbm (eq_of_beq hpb)
      have hqm : m ≤ q.2 := hmin q hq
      have hps : (if p.1 == b then (p.1, p.2 + 1) else p).2 = m + 1 := by
        rw [hpe] at hpb ⊢; simp [hpb]
      rw [hps]; omega
    · have hps : (if p.1 == b then (p.1, p.2 + 1) else p).2 = p.2 := by
        simp [hpb]
      have := hbal p hp q hq
      rw [hps]; omega

theorem foldAssign_inv (ks : List Nat) (d : List (String × Nat))
    (hnd : (d.map Prod.fst).Nodup)
    (hbal : ∀ p ∈ d, ∀ q ∈ d, p.2 ≤ q.2 + 1) :
    (ks.foldl stepAssign d).map Prod.fst = d.map Prod.fst
    ∧ ∀ p ∈ ks.foldl stepAssign d, ∀ q ∈ ks.foldl stepAssign d, p.2 ≤ q.2 + 1 := by
  induction ks generalizing d with
  | nil => exact ⟨rfl, hbal⟩
  | cons k ks ih =>
    have h1 := stepAssign_preserves d k hnd hbal
    have hnd' : ((stepAssign d k).map Prod.fst).Nodup := by rw [h1.1]; exact hnd
    have h2 := ih (stepAssign d k) hnd' h1.2
    exact ⟨h2.1.trans h1.1, h2.2⟩

theorem dictGet_cons {α : Type} (a : String × α) (t : List (String × α)) (k : String) :
    dictGet? (a :: t) k = if a.1 == k then some a.2 else dictGet? t k := by
  by_cases h : (a.1 == k) = true
  · simp [dictGet?, List.find?, h]
  · have h' : (a.1 == k) = false := by simpa using h
    simp [dictGet?, List.find?, h']

theorem dictFind_isSome {α : Type} (d : List (String × α)) (k : String) :
    (d.find? (fun p => p.1 == k)).isSome = (dictGet? d k).isSome := by
  unfold dictGet?
  cases d.find? (fun p => p.1 == k) <;> rfl

theorem dictGet_map_replace {α : Type} (d : List (String × α)) (k : String) (v : α)
    (h : (dictGet? d k).isSome = true) :
    dictGet? (d.map (fun p => if p.1 == k then (k, v) else p)) k = some v := by
  induction d with
  | nil => simp [dictGet?] at h
  | cons a t ih =>
    rw [dictGet_cons] at h
    by_cases ha : (a.1 == k) = true
    · rw [List.map_cons, if_pos ha, dictGet_cons]
      simp
    · rw [if_neg ha] at h
      rw [List.map_cons, if_neg ha, dictGet_cons, if_neg ha]
      exact ih h

theorem dictGet_append_missing {α : Type} (d : List (String × α)) (k : String) (v : α)
    (h : dictGet? d k = none) : dictGet? (d ++ [(k, v)]) k = some v := by
  induction d with
  | nil => simp [dictGet?, List.find?]
  | cons a t ih =>
    rw [dictGet_cons] at h
    rw [List.cons_append, dictGet_cons]
    by_cases ha : (a.1 == k) = true
    · rw [if_pos ha] at h; cases h
    · rw [if_neg ha] at h ⊢
      exact ih h

theorem dictGet_dictSet_self {α : Type} (d : List (String × α)) (k : String) (v : α) :
    dictGet? (dictSet d k v) k = some v := by
  unfold dictSet
  by_cases h : (d.find? (fun p => p.1 == k)).isSome = true
  · rw [if_pos h]
    exact dictGet_map_replace d k v (by rw [← dictFind_isSome]; exact h)
  · rw [if_neg h]
    have h0 : dictGet? d k = none := by
      rw [dictFind_isSome] at h
      exact Option.not_isSome_iff_eq_none.mp (by simpa using h)
    exact dictGet_append_missing d k v h0

theorem dictGet_eq_none_of_not_mem {α : Type} (d : List (String × α)) (k : String)
    (h : k ∉ d.map Prod.fst) : dictGet? d k = none := by
  induction d with
  | nil => rfl
  | cons a t ih =>
    simp only [List.map_cons, List.mem_cons] at h
    push_neg at h
    have ha : (a.1 == k) = false := by
      cases hb : (a.1 == k) with
      | true => exact absurd (eq_of_beq hb).symm h.1
      | false => rfl
    simp only [dictGet?, List.find?, ha]
    exact ih h.2

theorem dictGet_eraseP_other {α : Type} (d : List (String × α)) (sid k2 : String)
    (hne : k2 ≠ sid) :
    dictGet? (d.eraseP (fun p => p.1 == sid)) k2 = dictGet? d k2 := by
  induction d with
  | nil => rfl
  | cons a t ih =>
    cases h : (a.1 == sid) with
    | true =>
      have ha : a.1 = sid := eq_of_beq h
      have hk : (a.1 == k2) = false := by
        cases hb : (a.1 == k2) with
        | true => exact absurd (ha ▸ eq_of_beq hb).symm hne
        | false => rfl
      simp [List.eraseP_cons, h, dictGet?, List.find?, hk]
    | false =>
      cases h2 : (a.1 == k2) with
      | true => simp [List.eraseP_cons, h, dictGet?, List.find?, h2]
      | false =>
        simp only [List.eraseP_cons, h, cond_false]
        simp only [dictGet?, List.find?, h2]
        exact ih

theorem dictGet_eraseP_self_none {α : Type} (d : List (String × α)) (sid : String)
    (hnd : (d.map Prod.fst).Nodup) :
    dictGet? (d.eraseP (fun p => p.1 == sid)) sid = none := by
  induction d with
  | nil => rfl
  | cons a t ih =>
    simp only [List.map_cons, List.nodup_cons] at hnd
    cases h : (a.1 == sid) with
    | true =>
      have ha : a.1 = sid := eq_of_beq h
      simp only [List.eraseP_cons, h, cond_true]
      exact dictGet_eq_none_of_not_mem t sid (ha ▸ hnd.1)
    | false =>
      simp only [List.eraseP_cons, h, cond_false]
      simp only [dictGet?, List.find?, h]
      exact ih hnd.2

/-! ## Claim theorems -/

/-- C1: for every session and every user message on which the crisis policy
fires, `get_bot_response` returns the configured safety text as the reply,
records zero calls to the external completion collaborator, and leaves the
whole session registry (hence the in-memory history) unchanged. -/
theorem crisis_short_circuit (bm : BotManagerM) (sessions : List (String × SessData))
    (session_id user_message : String) (sess : SessData)
    (hs : dictGet? sessions session_id = some sess)
    (hc : (crisisCheck bm user_message).1 = true) :
    getBotResponse bm sessions session_id user_message
      = .ok { reply := { bot_response := bm.crisisText, crisis_detected := true,
                         detected_keyword := (crisisCheck bm user_message).2 },
              sessions := sessions, modelCalls := [] } := by
  unfold getBotResponse
  rw [hs]
  simp [hc]

/-- Witness for C1: the crisis theorem applied at a concrete manager,
registry and crisis message. -/
theorem crisis_short_circuit_witness :
    dictGet? [("s", sdemo)] "s" = some sdemo
    ∧ (crisisCheck bmCrisis "I want to end my life").1 = true
    ∧ getBotResponse bmCrisis [("s", sdemo)] "s" "I want to end my life"
        = .ok { reply := { bot_response := bmCrisis.crisisText,
                           crisis_detected := true,
                           detected_keyword :=
                             (crisisCheck bmCrisis "I want to end my life").2 },
                sessions := [("s", sdemo)], modelCalls := [] } :=
  ⟨by decide, by decide,
   crisis_short_circuit bmCrisis [("s", sdemo)] "s" "I want to end my life" sdemo
     (by decide) (by decide)⟩

/-- C8: for every session id absent from the live registry,
`get_bot_response` raises (the `ValueError` whose message is
`"Session not found: <id>"`, which the design taxonomy calls
`SessionNotFoundError`) instead of returning a reply, and for every present
session id it returns normally — it never raises that error. -/
theorem session_lookup_failure (bm : BotManagerM) (sessions : List (String × SessData))
    (session_id user_message : String) :
    (dictGet? sessions session_id = none →
      getBotResponse bm sessions session_id user_message
        = .error (.valueError ("Session not found: " ++ session_id)))
    ∧ ∀ sess, dictGet? sessions session_id = some sess →
        exceptOk (getBotResponse bm sessions session_id user_message) = true := by
  constructor
  · intro h
    unfold getBotResponse
    rw [h]
  · intro sess h
    unfold getBotResponse
    rw [h]
    by_cases hc : (crisisCheck bm user_message).1 = true <;> simp [hc, exceptOk]

/-- Witness for C8: an unknown id raises, a present id returns normally. -/
theorem session_lookup_failure_witness :
    getBotResponse bmPlain [] "s" "hi"
      = .error (.valueError ("Session not found: " ++ "s"))
    ∧ exceptOk (getBotResponse bmPlain [("s", sdemo)] "s" "hi") = true :=
  ⟨(session_lookup_failure bmPlain [] "s" "hi").1 rfl,
   (session_lookup_failure bmPlain [("s", sdemo)] "s" "hi").2 sdemo (by decide)⟩

/-- C7: for every non-crisis user turn on an existing session, the payload
sent to the completion collaborator is the system prompt of the session
variant (iff non-empty) followed by the last 20 history turns in order
followed by the new user turn; and on a successful completion the user turn
and the assistant reply are appended, in that order, to the session
history. -/
theorem payload_and_append_on_success (bm : BotManagerM)
    (sessions : List (String × SessData)) (session_id user_message : String)
    (sess : SessData) (content : String)
    (hs : dictGet? sessions session_id = some sess)
    (hc : (crisisCheck bm user_message).1 = false)
    (hok : bm.complete (buildMessages bm sess user_message) = .ok content) :
    getBotResponse bm sessions session_id user_message
      = .ok { reply := { bot_response := content.trim, crisis_detected := false,
                         detected_keyword := none },
              sessions := dictSet sessions session_id
                { sess with history := sess.history
                    ++ [⟨"user", user_message⟩, ⟨"assistant", content.trim⟩] },
              modelCalls := [buildMessages bm sess user_message] }
    ∧ buildMessages bm sess user_message
        = (if dictGetD bm.prompts sess.bot_type "" = "" then []
           else [⟨"system", dictGetD bm.prompts sess.bot_type ""⟩])
          ++ sess.history.drop (sess.history.length - 20)
          ++ [⟨"user", user_message⟩]
    ∧ dictGet? (dictSet sessions session_id
          { sess with history := sess.history
              ++ [⟨"user", user_message⟩, ⟨"assistant", content.trim⟩] }) session_id
        = some { sess with history := sess.history
            ++ [⟨"user", user_message⟩, ⟨"assistant", content.trim⟩] } := by
  refine ⟨?_, rfl, dictGet_dictSet_self _ _ _⟩
  unfold getBotResponse
  rw [hs]
  simp [hc, callModel, hok]

/-- Witness for C7: a concrete non-crisis turn on a session with prior
history and a prompt-bearing variant. -/
theorem payload_and_append_on_success_witness :
    dictGet? [("t", sdemo2)] "t" = some sdemo2
    ∧ (crisisCheck bmPlain "hi").1 = false
    ∧ bmPlain.complete (buildMessages bmPlain sdemo2 "hi") = .ok " hello "
    ∧ getBotResponse bmPlain [("t", sdemo2)] "t" "hi"
        = .ok { reply := { bot_response := " hello ".trim, crisis_detected := false,
                           detected_keyword := none },
                sessions := dictSet [("t", sdemo2)] "t"
                  { sdemo2 with history := sdemo2.history
                      ++ [⟨"user", "hi"⟩, ⟨"assistant", " hello ".trim⟩] },
                modelCalls := [buildMessages bmPlain sdemo2 "hi"] } :=
  ⟨by decide, by decide, rfl,
   (payload_and_append_on_success bmPlain [("t", sdemo2)] "t" "hi" sdemo2 " hello "
      (by decide) (by decide) rfl).1⟩

/-- Counterexample to C2: with a collaborator that raises, the source
catches the exception inside `_call_model` and continues: the turn IS
appended to the session history (user turn plus an error-text reply), the
collaborator was called once, and the caller-side counter of `app.py` is
still incremented — the state does not remain as it was before the turn. -/
theorem completion_failure_mutates_state :
    getBotResponse bmFail sessionsFail "s" "hi"
      = .ok { reply := { bot_response := modelErrorReply "boom",
                         crisis_detected := false, detected_keyword := none },
              sessions := [("s",
                { participant_id := "P1", bot_type := "control",
                  history := [⟨"user", "hi"⟩,
                              ⟨"assistant", modelErrorReply "boom"⟩] })],
              modelCalls := [[⟨"user", "hi"⟩]] }
    ∧ dictGet? sessionsFail "s"
        = some { participant_id := "P1", bot_type := "control", history := [] }
    ∧ ([⟨"user", "hi"⟩, ⟨"assistant", modelErrorReply "boom"⟩] : List Msg) ≠ []
    ∧ (appUserTurn bmFail
        { current_message_num := 0, messages := [], sessions := sessionsFail }
        "s" "hi").current_message_num = 1 := by
  refine ⟨by decide, by decide, by decide, by decide⟩

/-- C2 amended: if the completion collaborator raises on a non-crisis turn,
`_call_model` swallows the exception and returns an error-text reply;
`get_bot_response` then succeeds and appends both the user turn and that
error-text reply to the history exactly as on success, and the caller-side
message counter (incremented before the attempt) stays incremented — the
session state is not rolled back. -/
theorem completion_failure_error_reply (bm : BotManagerM)
    (sessions : List (String × SessData)) (session_id user_message : String)
    (sess : SessData) (e : String)
    (hs : dictGet? sessions session_id = some sess)
    (hc : (crisisCheck bm user_message).1 = false)
    (herr : bm.complete (buildMessages bm sess user_message) = .error e) :
    getBotResponse bm sessions session_id user_message
      = .ok { reply := { bot_response := modelErrorReply e, crisis_detected := false,
                         detected_keyword := none },
              sessions := dictSet sessions session_id
                { sess with history := sess.history
                    ++ [⟨"user", user_message⟩, ⟨"assistant", modelErrorReply e⟩] },
              modelCalls := [buildMessages bm sess user_message] }
    ∧ ∀ st : AppState, (appUserTurn bm st session_id user_message).current_message_num
        = st.current_message_num + 1 := by
  constructor
  · unfold getBotResponse
    rw [hs]
    simp [hc, callModel, herr]
  · intro st
    simp only [appUserTurn]
    split <;> rfl

/-- Witness for the amended C2 at the concrete failing collaborator. -/
theorem completion_failure_error_reply_witness :
    dictGet? sessionsFail "s" = some sdemo
    ∧ bmFail.complete (buildMessages bmFail sdemo "hi") = .error "boom"
    ∧ getBotResponse bmFail sessionsFail "s" "hi"
        = .ok { reply := { bot_response := modelErrorReply "boom",
                           crisis_detected := false, detected_keyword := none },
                sessions := dictSet sessionsFail "s"
                  { sdemo with history := sdemo.history
                      ++ [⟨"user", "hi"⟩, ⟨"assistant", modelErrorReply "boom"⟩] },
                modelCalls := [buildMessages bmFail sdemo "hi"] } :=
  ⟨by decide, rfl,
   (completion_failure_error_reply bmFail sessionsFail "s" "hi" sdemo "boom"
      (by decide) (by decide) rfl).1⟩

/-- C4: `current_message_num` is incremented by exactly 1 for a user turn
and by 0 for any other sender in `add_message`; it is non-decreasing over
any sequence of turns; and one accepted user input in `app.py` increments
the counter by exactly 1 whether or not the turn was crisis-short-circuited
(the increment happens before and independently of the bot call). -/
theorem message_num_counting :
    (∀ (handler_max : Nat) (conv : ConvState) (sender content : String),
       (addMessageState handler_max conv sender content).current_message_num
         = conv.current_message_num + (if sender == "user" then 1 else 0))
    ∧ (∀ (handler_max : Nat) (turns : List (String × String)) (conv : ConvState),
       conv.current_message_num
         ≤ (runTurns handler_max conv turns).current_message_num)
    ∧ (∀ (bm : BotManagerM) (st : AppState) (session_id user_input : String),
       (appUserTurn bm st session_id user_input).current_message_num
         = st.current_message_num + 1) := by
  have hstep : ∀ (handler_max : Nat) (conv : ConvState) (s c : String),
      (addMessageState handler_max conv s c).current_message_num
        = conv.current_message_num + (if s == "user" then 1 else 0) := by
    intro hm conv s c
    unfold addMessageState
    cases hu : (s == "user") with
    | true =>
      simp only [hu, if_true]
      split <;> simp
    | false =>
      simp [hu]
      split <;> simp
  refine ⟨hstep, ?_, ?_⟩
  · intro hm turns
    induction turns with
    | nil => intro conv; exact le_refl _
    | cons t ts ih =>
      intro conv
      have h2 := ih (addMessageState hm conv t.1 t.2)
      unfold runTurns at h2 ⊢
      rw [List.foldl_cons]
      refine le_trans ?_ h2
      rw [hstep hm conv t.1 t.2]
      exact Nat.le_add_right _ _
  · intro bm st session_id user_input
    simp only [appUserTurn]
    split <;> rfl

theorem addMessage_complete_iff (handler_max : Nat) (conv : ConvState)
    (s c : String)
    (h : conv.is_complete = true ↔ handler_max ≤ conv.current_message_num) :
    (addMessageState handler_max conv s c).is_complete = true
      ↔ handler_max ≤ (addMessageState handler_max conv s c).current_message_num := by
  unfold addMessageState
  cases hu : (s == "user") with
  | true =>
    simp only [hu, if_true]
    by_cases hle : handler_max ≤ conv.current_message_num + 1
    · simp [hle]
    · simp [hle]
      cases hcomp : conv.is_complete with
      | false => rfl
      | true => exact absurd (Nat.le_succ_of_le (h.mp hcomp)) hle
  | false =>
    simp [hu]
    by_cases hle : handler_max ≤ conv.current_message_num
    · simp [hle]
    · simp [hle]
      cases hcomp : conv.is_complete with
      | false => rfl
      | true => exact absurd (h.mp hcomp) hle

theorem runTurns_complete_iff (handler_max : Nat) (turns : List (String × String))
    (conv : ConvState)
    (h : conv.is_complete = true ↔ handler_max ≤ conv.current_message_num) :
    (runTurns handler_max conv turns).is_complete = true
      ↔ handler_max ≤ (runTurns handler_max conv turns).current_message_num := by
  induction turns generalizing conv with
  | nil => exact h
  | cons t ts ih =>
    unfold runTurns at ih ⊢
    rw [List.foldl_cons]
    exact ih _ (addMessage_complete_iff handler_max conv t.1 t.2 h)

/-- C6: starting from `start_conversation` with any positive message cap,
after any sequence of turns `is_complete` is true exactly when
`current_message_num` has reached the cap; concretely with cap 3, after the
third user turn `is_complete` is true and the `app.py` boundary check
disables (rejects) a fourth input. -/
theorem session_cap (handler_max : Nat) (turns : List (String × String))
    (session_id participant_id bot_type : String) (h1 : 1 ≤ handler_max) :
    ((runTurns handler_max
        (startConversation handler_max session_id participant_id bot_type)
        turns).is_complete = true
      ↔ handler_max ≤ (runTurns handler_max
          (startConversation handler_max session_id participant_id bot_type)
          turns).current_message_num)
    ∧ (runTurns 3 (startConversation 3 "s" "p" "b")
        [("user", "m1"), ("bot", "r1"), ("user", "m2"), ("bot", "r2"),
         ("user", "m3")]).is_complete = true
    ∧ shouldDisableInput
        (runTurns 3 (startConversation 3 "s" "p" "b")
          [("user", "m1"), ("bot", "r1"), ("user", "m2"), ("bot", "r2"),
           ("user", "m3")]).current_message_num 3 = true := by
  refine ⟨?_, by decide, by decide⟩
  apply runTurns_complete_iff
  simp [startConversation]
  omega

/-- Witness for C6: the cap theorem applied at cap 3 with a single user
turn. -/
theorem session_cap_witness :
    1 ≤ 3
    ∧ ((runTurns 3 (startConversation 3 "s2" "p2" "b2")
          [("user", "x")]).is_complete = true
        ↔ 3 ≤ (runTurns 3 (startConversation 3 "s2" "p2" "b2")
            [("user", "x")]).current_message_num) :=
  ⟨by decide, (session_cap 3 [("user", "x")] "s2" "p2" "b2" (by decide)).1⟩

/-- Counterexample to C5: `create_new_session` picks the variant by plain
`random.choice(self.bot_types)`.  With tie index 0 it returns
`"cognitive"` whatever the persisted distribution is, while on the
distribution `dExample` the equal-distribution balancer can only ever
return `"emotional"` (the unique minimum, so the tie set is a singleton).
Hence the selection is not the balancer applied to the distribution. -/
theorem create_session_ignores_balancer :
    (createNewSession [] "sid" "pid" 0).2.bot_type = "cognitive"
    ∧ pyMin (dExample.map Prod.snd) = .ok 0
    ∧ (dExample.filter (fun p => p.2 == 0)).map Prod.fst = ["emotional"]
    ∧ assignEqualDistribution dExample 0 = .ok "emotional"
    ∧ ("cognitive" : String) ≠ "emotional" := by
  refine ⟨rfl, by decide, by decide, by decide, by decide⟩

/-- C5 amended: `create_new_session` selects the variant by a uniform
random choice over `BotManager.bot_types` (cognitive, emotional,
motivational, control), taking no distribution into account — the
`RandomAssignment` balancer is never consulted — and registers the new
session with that variant and an empty history. -/
theorem create_session_uniform_choice (sessions : List (String × SessData))
    (session_id participant_id : String) (k : Nat) :
    (createNewSession sessions session_id participant_id k).2.bot_type
        = bmBotTypes.getD (k % bmBotTypes.length) "cognitive"
    ∧ (createNewSession sessions session_id participant_id k).2.bot_type ∈ bmBotTypes
    ∧ dictGet? (createNewSession sessions session_id participant_id k).1 session_id
        = some { participant_id := participant_id,
                 bot_type := (createNewSession sessions
                   session_id participant_id k).2.bot_type,
                 history := [] } := by
  refine ⟨rfl, ?_, ?_⟩
  · show bmBotTypes.getD (k % bmBotTypes.length) "cognitive" ∈ bmBotTypes
    rcases getD_mem_or bmBotTypes (k % bmBotTypes.length) "cognitive" with h | h
    · exact h
    · rw [h]; decide
  · exact dictGet_dictSet_self sessions session_id _

/-- Counterexample to C9: calling the equal-distribution assignment with an
empty current distribution raises `ValueError` (Python `min()` on an empty
sequence), both directly and through `assign_bot_type`; it does not treat
the variants as having count 0. -/
theorem assign_empty_distribution_raises :
    assignEqualDistribution [] 0
      = .error (.valueError "min() arg is an empty sequence")
    ∧ assignBotType "equal_distribution" [] 0 0
      = .error (.valueError "min() arg is an empty sequence") := by
  exact ⟨rfl, by decide⟩

/-- C9 amended: on an empty distribution `_assign_equal_distribution`
raises the `min()` `ValueError`; on any nonempty distribution it never
raises and returns a key of the distribution whose count is minimal among
the keys actually present (variants absent from the distribution are not
candidates and are not treated as 0). -/
theorem assign_equal_distribution_total_on_nonempty
    (d : List (String × Nat)) (k : Nat) :
    (d = [] → assignEqualDistribution d k
        = .error (.valueError "min() arg is an empty sequence"))
    ∧ (d ≠ [] → ∃ b m, assignEqualDistribution d k = .ok b ∧ (b, m) ∈ d
        ∧ ∀ p ∈ d, m ≤ p.2) := by
  constructor
  · rintro rfl; rfl
  · intro hne
    cases hd : d with
    | nil => exact absurd hd hne
    | cons a t =>
      subst hd
      have hm : pyMin ((a :: t).map Prod.snd)
          = .ok ((t.map Prod.snd).foldl Nat.min a.2) := rfl
      set m := (t.map Prod.snd).foldl Nat.min a.2 with hmdef
      obtain ⟨hmem, hlb⟩ := pyMin_ok_spec _ _ hm
      rcases List.mem_map.mp hmem with ⟨q, hq, hq2⟩
      have hqf : q ∈ (a :: t).filter (fun p => p.2 == m) :=
        List.mem_filter.mpr ⟨hq, by simp [hq2]⟩
      have hbt : q.1 ∈ ((a :: t).filter (fun p => p.2 == m)).map Prod.fst :=
        List.mem_map.mpr ⟨q, hqf, rfl⟩
      cases htied : ((a :: t).filter (fun p => p.2 == m)).map Prod.fst with
      | nil => rw [htied] at hbt; cases hbt
      | cons c cs =>
        have hbmem : (c :: cs).getD (k % (c :: cs).length) c ∈ (c :: cs) := by
          rcases getD_mem_or (c :: cs) (k % (c :: cs).length) c with h | h
          · exact h
          · rw [h]; exact List.mem_cons_self _ _
        rw [← htied] at hbmem
        rcases List.mem_map.mp hbmem with ⟨r, hr, hr1⟩
        have hr2 := List.mem_filter.mp hr
        have hrm : r.2 = m := by simpa using hr2.2
        refine ⟨(c :: cs).getD (k % (c :: cs).length) c, m, ?_, ?_, ?_⟩
        · simp only [assignEqualDistribution, hm]
          rw [htied]
          rfl
        · rw [← htied, ← hr1, ← hrm]
          exact hr2.1
        · intro p hp
          exact hlb p.2 (List.mem_map.mpr ⟨p, hp, rfl⟩)

/-- Witness for the amended C9: the empty case raises; a nonempty
distribution with a single non-variant key succeeds and returns that key
as the minimum. -/
theorem assign_equal_distribution_total_witness :
    assignEqualDistribution [] 7
      = .error (.valueError "min() arg is an empty sequence")
    ∧ ∃ b m, assignEqualDistribution [("foo", 2)] 0 = .ok b
        ∧ (b, m) ∈ [("foo", 2)] ∧ ∀ p ∈ [("foo", 2)], m ≤ p.2 :=
  ⟨(assign_equal_distribution_total_on_nonempty [] 7).1 rfl,
   (assign_equal_distribution_total_on_nonempty [("foo", 2)] 0).2 (by decide)⟩

/-- C3: for every sequence of serialized equal-distribution assignments
starting from the all-zero distribution over the four variants, where each
result is added to the distribution before the next call, at every point
the per-variant counts pairwise differ by at most 1 — hence the maximum
count minus the minimum count never exceeds 1. -/
theorem equal_distribution_gap_le_one (ks : List Nat) :
    ∀ p ∈ runAssignments ks, ∀ q ∈ runAssignments ks, p.2 - q.2 ≤ 1 := by
  have h := foldAssign_inv ks allZero (by decide) (by decide)
  intro p hp q hq
  have hle := h.2 p hp q hq
  omega

/-- Witness for C3: three assignments with concrete tie indices, comparing
the largest and smallest resulting counts. -/
theorem equal_distribution_gap_le_one_witness :
    ("emotional", 1) ∈ runAssignments [0, 1, 2]
    ∧ ("neutral", 0) ∈ runAssignments [0, 1, 2]
    ∧ (("emotional", 1) : String × Nat).2 - (("neutral", 0) : String × Nat).2 ≤ 1 :=
  ⟨by decide, by decide,
   equal_distribution_gap_le_one [0, 1, 2] ("emotional", 1) (by decide)
     ("neutral", 0) (by decide)⟩

/-- C10: `end_session` with an unregistered id returns normally and leaves
the registry unchanged; with a registered id it removes exactly the entry
of that session — the id no longer resolves afterwards while every other
id resolves to exactly what it did before.  (`endSession` is a total
function: it never raises.) -/
theorem end_session_spec (sessions : List (String × SessData)) (session_id : String)
    (hnd : (sessions.map Prod.fst).Nodup) :
    (dictGet? sessions session_id = none → endSession sessions session_id = sessions)
    ∧ dictGet? (endSession sessions session_id) session_id = none
    ∧ ∀ k2, k2 ≠ session_id →
        dictGet? (endSession sessions session_id) k2 = dictGet? sessions k2 := by
  refine ⟨?_, ?_, ?_⟩
  · intro h
    unfold endSession
    have hc : (sessions.find? (fun p => p.1 == session_id)).isSome = false := by
      rw [dictFind_isSome, h]; rfl
    rw [if_neg (by simp [hc])]
  · unfold endSession
    by_cases hc : (sessions.find? (fun p => p.1 == session_id)).isSome = true
    · rw [if_pos hc]
      exact dictGet_eraseP_self_none sessions session_id hnd
    · rw [if_neg hc]
      rw [dictFind_isSome] at hc
      exact Option.not_isSome_iff_eq_none.mp (by simpa using hc)
  · intro k2 hne
    unfold endSession
    by_cases hc : (sessions.find? (fun p => p.1 == session_id)).isSome = true
    · rw [if_pos hc]
      exact dictGet_eraseP_other sessions session_id k2 hne
    · rw [if_neg hc]

/-- Witness for C10: a two-session registry; ending session a removes a,
keeps b, and ending an unknown id leaves the registry unchanged. -/
theorem end_session_spec_witness :
    (([("a", sdemo), ("b", sdemo2)].map Prod.fst).Nodup)
    ∧ dictGet? (endSession [("a", sdemo), ("b", sdemo2)] "a") "a" = none
    ∧ dictGet? (endSession [("a", sdemo), ("b", sdemo2)] "a") "b"
        = dictGet? [("a", sdemo), ("b", sdemo2)] "b"
    ∧ endSession [("a", sdemo), ("b", sdemo2)] "zz" = [("a", sdemo), ("b", sdemo2)] :=
  ⟨by decide,
   (end_session_spec [("a", sdemo), ("b", sdemo2)] "a" (by decide)).2.1,
   (end_session_spec [("a", sdemo), ("b", sdemo2)] "a" (by decide)).2.2 "b" (by decide),
   (end_session_spec [("a", sdemo), ("b", sdemo2)] "zz" (by decide)).1 (by decide)⟩
